import Mathlib

set_option maxHeartbeats 1000000

/-!
Verification of `src/parse.py` (twitter-utils): a shallow embedding of the
module's data model and operations, followed by theorems about the frozen
claims.

Modelling conventions:
* JSON-ish cell values are the inductive `Value` (strings, integers, the
  pandas missing marker `nan`, nested dicts and lists).  Python dicts are
  insertion-ordered association lists `Rec`; `dictSet` replaces the existing
  entry in place (Python `d[k] = v`), `dictLookup` is `d[k]` returning
  `Option`.  Key equality `vEq` is Python `==` restricted to hashable
  scalars: strings and ints compare by value, distinct `nan` objects are
  unequal, and cross-type comparisons are false (type mismatch).
* A pandas DataFrame is `PFrame` (column labels + rows); after `set_index`
  it is an `IFrame` which also carries the index labels.
* Python exceptions are `Except PError`; a function that cannot raise is a
  total Lean function.
* External collaborators (file enumeration, JSON loading, the logger and
  the pickle sink) are modelled as inputs: a file is a name together with
  `Option Response` (`none` = load failure), the sink is a `String → Bool`
  telling whether a given write succeeds, and log messages that the claims
  mention are carried in the returned outcome values.
-/

inductive PError where
  | keyError
  | typeError
  | valueError
  | indexError
  deriving DecidableEq, Repr

inductive Value where
  | str : String → Value
  | int : Int → Value
  | nan : Value
  | vdict : List (Value × Value) → Value
  | vlist : List Value → Value

/-- A Python dict: insertion-ordered association list. -/
abbrev Rec := List (Value × Value)

/-- Python `==` on dict keys (hashable scalars): strings and ints by value;
`nan` compares unequal even to itself (distinct NaN objects); containers and
cross-type comparisons are false. -/
def vEq : Value → Value → Bool
  | .str a, .str b => a == b
  | .int a, .int b => a == b
  | _, _ => false

/-- Whether a value is usable as a Python dict key (hashable). -/
def hashableV : Value → Bool
  | .vdict _ => false
  | .vlist _ => false
  | _ => true

/-- Python `d[k] = v`: replace the first entry with an equal key in place,
else append at the end. -/
def dictSet : Rec → Value → Value → Rec
  | [], k, v => [(k, v)]
  | p :: d, k, v => if vEq p.1 k then (p.1, v) :: d else p :: dictSet d k v

/-- Python `d[k]` as an `Option` (also `k in d.keys()`). -/
def dictLookup (d : Rec) (k : Value) : Option Value :=
  (d.find? (fun p => vEq p.1 k)).map (fun p => p.2)

/-- Python `a.update(u)`: fold the entries of `u` onto `a` with `dictSet`. -/
def dictUpdate (a : Rec) (u : Rec) : Rec :=
  u.foldl (fun d p => dictSet d p.1 p.2) a

/-- Python `dict(pairs)`: insertion order, last value wins per key. -/
def buildDict (ps : List (Value × Value)) : Rec :=
  ps.foldl (fun d p => dictSet d p.1 p.2) []

/-- A pandas DataFrame with its default range index: column labels and rows
(each row aligned with `cols`). -/
structure PFrame where
  cols : List Value
  rows : List (List Value)

/-- A DataFrame after `set_index`: explicit index labels. -/
structure IFrame where
  index : List Value
  cols : List Value
  rows : List (List Value)

/-- Position of a column label (first match under `vEq`). -/
def posOf (l : List Value) (c : Value) : Option Nat :=
  match l with
  | [] => none
  | x :: xs => if vEq x c then some 0 else (posOf xs c).map (fun n => n + 1)

/-- `df[c]`: the column as a list of cells; raises `KeyError` if absent. -/
def getCol (df : PFrame) (c : Value) : Except PError (List Value) :=
  match posOf df.cols c with
  | none => .error .keyError
  | some j => .ok (df.rows.map (fun r => r.getD j .nan))

/-- Union of the records' keys in first-appearance order: the columns pandas
gives `pd.DataFrame.from_dict(list_of_dicts)`. -/
def colsUnion (rs : List Rec) : List Value :=
  rs.foldl (fun acc r =>
    r.foldl (fun a p => if a.any (fun c => vEq c p.1) then a else a ++ [p.1]) acc) []

/-- One row of such a frame: the record's value per column, `nan` if absent. -/
def rowOf (cols : List Value) (r : Rec) : List Value :=
  cols.map (fun c => (dictLookup r c).getD .nan)

/-- `pd.DataFrame.from_dict(list_of_dicts)`. -/
def frameFromRecords (rs : List Rec) : PFrame :=
  ⟨colsUnion rs, rs.map (rowOf (colsUnion rs))⟩

/-- `df.set_index(c)`: move column `c` to the index; `KeyError` if absent. -/
def pdSetIndex (df : PFrame) (c : Value) : Except PError IFrame :=
  match posOf df.cols c with
  | none => .error .keyError
  | some j =>
      .ok ⟨df.rows.map (fun r => r.getD j .nan),
           df.cols.eraseIdx j,
           df.rows.map (fun r => r.eraseIdx j)⟩

/-- `x.T`: transpose. -/
def transposeI (f : IFrame) : IFrame :=
  ⟨f.cols, f.index, (List.range f.cols.length).map (fun j => f.rows.map (fun r => r.getD j .nan))⟩

/-- `x.reset_index(drop=True)`: replace the index by the default range index
(irrelevant to a later `to_dict(orient="records")`, which ignores the index). -/
def resetIndexDrop (f : IFrame) : IFrame :=
  ⟨(List.range f.rows.length).map (fun i => Value.int i), f.cols, f.rows⟩

/-- `x.to_dict(orient="records")`: one dict per row, keyed by the column
labels, later duplicate labels winning (Python `dict(zip(columns, row))`);
`TypeError` if a column label is unhashable. -/
def toDictRecords (f : IFrame) : Except PError (List Rec) :=
  if f.cols.all hashableV then
    .ok (f.rows.map (fun r => buildDict (f.cols.zip r)))
  else .error .typeError

def isVDict : Value → Bool
  | .vdict _ => true
  | _ => false

def asRec : Value → Rec
  | .vdict d => d
  | _ => []

/-- Whether every value of a dict is a list, and all of one length (the
shapes `pd.DataFrame(dict)` accepts in our fragment). -/
def dictOfLists : Rec → Option (List Value × List (List Value))
  | d =>
    if d.all (fun p => match p.2 with | .vlist _ => true | _ => false) then
      let cols := d.map (fun p => p.1)
      let colvals := d.map (fun p => match p.2 with | .vlist l => l | _ => [])
      match colvals.head? with
      | none => some (cols, [])
      | some first =>
          if colvals.all (fun l => l.length = first.length) then
            some (cols, (List.range first.length).map
              (fun i => colvals.map (fun l => l.getD i .nan)))
          else none
    else none

/-- The `pd.DataFrame(t)` constructor on a raw JSON value, at the fidelity
`parse_ref` exercises: a list of dicts gives the usual record frame; a list
of non-dict scalars gives a single column labelled `0`; the empty list gives
the empty frame (no columns); a dict of equal-length lists gives a keyed
frame; every other shape raises (`ValueError`/`TypeError` in pandas — the
error's identity is irrelevant downstream, where any exception is caught). -/
def pdFrameOfValue : Value → Except PError PFrame
  | .vlist vs =>
      if vs.isEmpty then .ok ⟨[], []⟩
      else if vs.all isVDict then .ok (frameFromRecords (vs.map asRec))
      else if vs.any isVDict then .error .valueError
      else .ok ⟨[.int 0], vs.map (fun v => [v])⟩
  | .vdict d =>
      if d.isEmpty then .ok ⟨[], []⟩
      else
        match dictOfLists d with
        | some (cols, rows) => .ok ⟨cols, rows⟩
        | none => .error .valueError
  | _ => .error .valueError

/-- The all-empty reference record `{"replied_to": "", "quoted": "", "retweeted": ""}`. -/
def refDefault : Rec :=
  [(.str "replied_to", .str ""), (.str "quoted", .str ""), (.str "retweeted", .str "")]

/-- The body of `parse_ref`'s `try` block: build a frame from the raw
reference list, index it on `"type"`, transpose, take the first record of
`to_dict(orient="records")` and overlay it on the default record. -/
def parse_refCore (t : Value) : Except PError Rec :=
  match pdFrameOfValue t with
  | .error e => .error e
  | .ok x =>
    match pdSetIndex x (.str "type") with
    | .error e => .error e
    | .ok xi =>
      match toDictRecords (resetIndexDrop (transposeI xi)) with
      | .error e => .error e
      | .ok recs =>
        match recs with
        | [] => .error .indexError
        | x0 :: _ => .ok (dictUpdate refDefault x0)

/-- `parse_ref`: the bare `except` catches every exception of the pipeline
and returns the all-empty default, so the embedding is a total function. -/
def parse_ref (t : Value) : Rec :=
  match parse_refCore t with
  | .ok r => r
  | .error _ => refDefault

/-- `pd.Series(cell)` for one cell of `df["public_metrics"]`: a dict gives a
series keyed by its keys, a list a series keyed `0..n-1`, a scalar a single
row keyed `0`. -/
def cellSeries : Value → Rec
  | .vdict d => d
  | .vlist l => (List.range l.length).map (fun i => (Value.int (Int.ofNat i), l.getD i .nan))
  | v => [(.int 0, v)]

/-- `df[col].apply(pd.Series)`: stack the per-cell series into a frame
(columns = union of the series keys in first-appearance order; pandas may
additionally sort a non-uniform union, a case no claim exercises). -/
def applySeries (cells : List Value) : PFrame :=
  frameFromRecords (cells.map cellSeries)

/-- `pd.concat(frames, axis=1)` for frames of the same height and default
range indexes (the only shape `parse_data` produces): columns and the rows
are concatenated position-wise.  On mismatched heights pandas would align by
index instead; modelled as an error since the source never reaches it. -/
def concatAxis1 (dfs : List PFrame) : Except PError PFrame :=
  match dfs with
  | [] => .error .valueError
  | d :: ds =>
      if ds.all (fun f => f.rows.length = d.rows.length) then
        .ok ⟨(d :: ds).foldl (fun a f => a ++ f.cols) [],
             (List.range d.rows.length).map
               (fun i => (d :: ds).foldl (fun a f => a ++ (f.rows.getD i []).take f.cols.length) [])⟩
      else .error .valueError

/-- The `try` block of `parse_data` joining base, metrics and references:
`df["referenced_tweets"]` (KeyError when the column is absent), one
`parse_ref` per cell, `pd.DataFrame.from_dict` of the results, and the
column-wise concat. -/
def parse_dataRefJoin (df metrics : PFrame) : Except PError PFrame :=
  match getCol df (.str "referenced_tweets") with
  | .error e => .error e
  | .ok rcol => concatAxis1 [df, metrics, frameFromRecords (rcol.map parse_ref)]

/-- `parse_data(data)`: build the frame, expand `public_metrics`, and join
the reference records; `except KeyError: pass` returns the *unjoined* `df`
(the metrics expansion is computed but only concatenated inside the try). -/
def parse_data (data : List Rec) : Except PError PFrame :=
  let df := frameFromRecords data
  match getCol df (.str "public_metrics") with
  | .error e => .error e
  | .ok pm =>
    match parse_dataRefJoin df (applySeries pm) with
    | .ok joined => .ok joined
    | .error .keyError => .ok df
    | .error e => .error e

/-- The API response envelope as far as `read_aggregate_pickle` reads it:
`res["data"]`, `res["includes"]["users" | "media" | "tweets"]`, each `none`
when the key path is missing (Python raises `KeyError` there). -/
structure Response where
  rdata : Option (List Rec)
  includes_users : Option (List Rec)
  includes_media : Option (List Rec)
  includes_tweets : Option (List Rec)

/-- `parse_users(response, logger, file=None)`: missing users section is
caught and yields the empty frame (after an informational log); otherwise
the frame with `public_metrics` expanded and column-concatenated. -/
def parse_users (response : Response) : Except PError PFrame :=
  match response.includes_users with
  | none => .ok ⟨[], []⟩
  | some data =>
    let df := frameFromRecords data
    match getCol df (.str "public_metrics") with
    | .error e => .error e
    | .ok pm => concatAxis1 [df, applySeries pm]

/-- `parse_media(response, logger, file=None)`: missing media section yields
the empty frame; otherwise the plain record frame. -/
def parse_media (response : Response) : PFrame :=
  match response.includes_media with
  | none => ⟨[], []⟩
  | some data => frameFromRecords data

/-- The interaction-type enumeration of the module. -/
inductive RType where
  | RETWEET
  | QUOTE
  | REPLY
  | MENTION
  deriving DecidableEq, Repr

/-- `.value` of the enum members: RETWEET=1, QUOTE=2, REPLY=3, MENTION=4. -/
def RType.value : RType → Int
  | .RETWEET => 1
  | .QUOTE => 2
  | .REPLY => 3
  | .MENTION => 4

/-- Modelled from the spec: the retweet/quote builders reference the enum
through an ambient `utils` module that is not part of `src/` ("an unresolved
external reference to an enum module in the retweet/quote helpers", spec
section 9); per the spec it denotes the interaction-type enumeration, i.e.
this module's `RType`. -/
def utilsRTypeValue : RType → Int := RType.value

/-- `df.set_index(key)[val].to_dict()`: a dict from the `key` column to the
`val` column, later rows winning on duplicate keys; raises `KeyError` if a
column is absent and `TypeError` if an index cell is unhashable.  In
`parse_retweets`/`parse_quotes` this runs *before* the `try` blocks. -/
def dfToDict (df : PFrame) (key val : Value) : Except PError Rec :=
  match pdSetIndex df key with
  | .error e => .error e
  | .ok xi =>
    match posOf xi.cols val with
    | none => .error .keyError
    | some j =>
        if xi.index.all hashableV then
          .ok (buildDict (xi.index.zip (xi.rows.map (fun r => r.getD j .nan))))
        else .error .typeError

/-- The edge dict `{src_user_id, tar_user_id, tweet_id, rtype}`. -/
def mkEdgeRec (src tar tid : Value) (rt : Int) : Rec :=
  [(.str "src_user_id", src), (.str "tar_user_id", tar),
   (.str "tweet_id", tid), (.str "rtype", .int rt)]

/-- `parse_retweets`: build both id→author dicts (outside any `try`), then
try the referenced-tweet dict, fall back to the tweet dict (the bare
`except` also catches a `TypeError` from an unhashable target id, modelled
by `dictLookup` returning `none`), and return `{}` when both fail. -/
def parse_retweets (tweet_id author_id retweet_id : Value)
    (tweet_df referenced_df : PFrame) : Except PError Rec :=
  match dfToDict tweet_df (.str "id") (.str "author_id") with
  | .error e => .error e
  | .ok tweet_dict =>
    match dfToDict referenced_df (.str "id") (.str "author_id") with
    | .error e => .error e
    | .ok ref_dict =>
      match dictLookup ref_dict retweet_id with
      | some rt => .ok (mkEdgeRec rt author_id tweet_id (utilsRTypeValue .RETWEET))
      | none =>
        match dictLookup tweet_dict retweet_id with
        | some rt => .ok (mkEdgeRec rt author_id tweet_id (utilsRTypeValue .RETWEET))
        | none => .ok []

/-- `parse_quotes`: identical two-stage lookup, emitting rtype QUOTE. -/
def parse_quotes (tweet_id author_id quote_id : Value)
    (tweet_df referenced_df : PFrame) : Except PError Rec :=
  match dfToDict tweet_df (.str "id") (.str "author_id") with
  | .error e => .error e
  | .ok tweet_dict =>
    match dfToDict referenced_df (.str "id") (.str "author_id") with
    | .error e => .error e
    | .ok ref_dict =>
      match dictLookup ref_dict quote_id with
      | some quid => .ok (mkEdgeRec quid author_id tweet_id (utilsRTypeValue .QUOTE))
      | none =>
        match dictLookup tweet_dict quote_id with
        | some quid => .ok (mkEdgeRec quid author_id tweet_id (utilsRTypeValue .QUOTE))
        | none => .ok []

/-- `parse_replies`: unconditionally one edge, no lookup. -/
def parse_replies (tweet_id author_id in_reply_to_user_id : Value) : Rec :=
  mkEdgeRec in_reply_to_user_id author_id tweet_id (RType.value .REPLY)

/-- The loop body of `parse_mentions`: one edge per mention `m`, reading
`m["id"]` (KeyError if absent, TypeError if `m` is not a dict); the
exception propagates, so the whole call fails past the first bad entry. -/
def mentionsLoop (tweet_id author_id : Value) : List Value → Except PError (List Rec)
  | [] => .ok []
  | m :: ms =>
    match m with
    | .vdict d =>
      match dictLookup d (.str "id") with
      | some i =>
        match mentionsLoop tweet_id author_id ms with
        | .ok rest => .ok (mkEdgeRec author_id i tweet_id (RType.value .MENTION) :: rest)
        | .error e => .error e
      | none => .error .keyError
    | _ => .error .typeError

/-- `parse_mentions`: no `"mentions"` key gives the empty list; a list value
is iterated; iterating an empty dict or empty string also yields no
mentions; any other value raises on iteration or on `m["id"]`. -/
def parse_mentions (tweet_id author_id : Value) (entities : Rec) :
    Except PError (List Rec) :=
  match dictLookup entities (.str "mentions") with
  | none => .ok []
  | some (.vlist ms) => mentionsLoop tweet_id author_id ms
  | some (.vdict []) => .ok []
  | some (.str "") => .ok []
  | some _ => .error .typeError

/-- Outcome of one `concat_and_pickle` call, carrying the log message the
source would emit (`logger` is ambient module state, spec section 9; the
sink `df.to_pickle` is the opaque persistence collaborator). -/
inductive FlushOutcome where
  | saved : String → PFrame → FlushOutcome
  | concatFailed : String → FlushOutcome
  | saveFailed : String → FlushOutcome

/-- `pd.concat(df_list)` (axis=0): fails on an empty list; otherwise stacks
the rows under the union of the columns (missing cells become `nan`). -/
def pdConcat (dfs : List PFrame) : Except PError PFrame :=
  match dfs with
  | [] => .error .valueError
  | d :: ds =>
      let cols := (d :: ds).foldl
        (fun acc f => f.cols.foldl
          (fun a c => if a.any (fun c2 => vEq c2 c) then a else a ++ [c]) acc) []
      .ok ⟨cols, (d :: ds).foldl
        (fun acc f => acc ++ f.rows.map (fun r =>
          cols.map (fun c =>
            match posOf f.cols c with
            | some j => r.getD j .nan
            | none => .nan))) []⟩

/-- `df.replace(to_replace=[r"^\s*$", None], value=np.nan, regex=True)`:
whitespace-only (or empty) string cells become the missing marker. -/
def cleanCell (v : Value) : Value :=
  match v with
  | .str s => if s.toList.all (fun c => c = ' ' ∨ c = '\t' ∨ c = '\n' ∨ c = '\r')
              then .nan else .str s
  | v => v

def cleanNulls (df : PFrame) : PFrame :=
  ⟨df.cols, df.rows.map (fun r => r.map cleanCell)⟩

/-- `concat_and_pickle(df_list, df_name, pickle_path, pickle_protocol)`.
The second component of the result is the state of the caller's `df_list`
after the call (the Python list object is mutable; no statement of the
function mutates it, so it is returned unchanged on every path).  `sinkOk`
says whether the external `to_pickle` write succeeds. -/
def concat_and_pickle (df_list : List PFrame) (df_name : String)
    (pickle_path : String) (pickle_protocol : Nat) (sinkOk : Bool) :
    FlushOutcome × List PFrame :=
  match pdConcat df_list with
  | .error _ =>
      (.concatFailed ("Cannot concat " ++ df_name ++ " list of "
        ++ toString df_list.length ++ " dataframes"), df_list)
  | .ok df =>
      let df2 := cleanNulls df
      if sinkOk then (.saved pickle_path df2, df_list)
      else (.saveFailed ("Cannot save " ++ df_name ++ " to " ++ pickle_path), df_list)

/-- The aggregator's mutable state: the four accumulators, the not-loaded
list, plus instrumentation of the observable effects (the flush outcomes in
order, and the number of loop iterations completed). -/
structure AggState where
  all_tweets : List PFrame
  all_users : List PFrame
  all_media : List PFrame
  all_ref : List PFrame
  not_loaded : List String
  outcomes : List FlushOutcome
  processed : Nat

def initAgg : AggState := ⟨[], [], [], [], [], [], 0⟩

/-- One file of the loop body of `read_aggregate_pickle` (both `try`s).
A `none` load is the outer `except`: warn and record in `not_loaded`.
Inside the inner `try`, a missing `"data"` key or a `parse_data` failure is
caught with nothing appended.  After a successful `all_tweets.append`, the
next statement is `users = parse_users(res)` — a call that omits the
required positional `logger` argument and therefore raises `TypeError`,
caught by the inner `except`: the `users`, `media` and referenced-tweet
appends never execute. -/
def processFile (cache_dir file : String) (load : Option Response)
    (st : AggState) : AggState :=
  match load with
  | none => { st with not_loaded := st.not_loaded ++ [cache_dir ++ "/" ++ file] }
  | some res =>
    match res.rdata with
    | none => st
    | some d =>
      match parse_data d with
      | .error _ => st
      | .ok t => { st with all_tweets := st.all_tweets ++ [t] }

/-- The flush block at an interval boundary or the final file: four
`concat_and_pickle` calls under `{kind}_{i}.pickle` names. -/
def flushAll (save_dir : String) (i : Nat) (proto : Nat)
    (sink : String → Bool) (st : AggState) : AggState :=
  let p1 := save_dir ++ "/tweets_" ++ toString i ++ ".pickle"
  let p2 := save_dir ++ "/users_" ++ toString i ++ ".pickle"
  let p3 := save_dir ++ "/media_" ++ toString i ++ ".pickle"
  let p4 := save_dir ++ "/ref_" ++ toString i ++ ".pickle"
  let r1 := concat_and_pickle st.all_tweets "tweets" p1 proto (sink p1)
  let r2 := concat_and_pickle st.all_users "users" p2 proto (sink p2)
  let r3 := concat_and_pickle st.all_media "media" p3 proto (sink p3)
  let r4 := concat_and_pickle st.all_ref "ref" p4 proto (sink p4)
  { st with all_tweets := r1.2, all_users := r2.2, all_media := r3.2, all_ref := r4.2,
            outcomes := st.outcomes ++ [r1.1, r2.1, r3.1, r4.1] }

/-- The enumerated `for i, file in enumerate(files)` loop.  `total` is
`len(files)`; the flush condition is
`(i % agg_interval == 0 and i > 0) or (i == len(files) - 1)`. -/
def aggLoop (cache_dir save_dir : String) (agg_interval proto : Nat)
    (sink : String → Bool) (total : Nat) :
    Nat → List (String × Option Response) → AggState → AggState
  | _, [], st => st
  | i, f :: fs, st =>
    let st1 := processFile cache_dir f.1 f.2 st
    let st2 := { st1 with processed := st1.processed + 1 }
    let st3 := if (i % agg_interval = 0 ∧ 0 < i) ∨ i = total - 1
               then flushAll save_dir i proto sink st2 else st2
    aggLoop cache_dir save_dir agg_interval proto sink total (i + 1) fs st3

/-- `read_aggregate_pickle`: directory enumeration and JSON loading are the
external collaborators, so the input is the listed files, each with its load
result; `debug_mode` truncates to the first 10 files. -/
def read_aggregate_pickle (cache_dir save_dir : String)
    (files : List (String × Option Response)) (agg_interval : Nat)
    (pickle_protocol : Nat) (debug_mode : Bool) (sink : String → Bool) : AggState :=
  let fl := if debug_mode then files.take 10 else files
  aggLoop cache_dir save_dir agg_interval pickle_protocol sink fl.length 0 fl initAgg

/-- The raw dict `{"type": ty, "id": i}` of one reference-list entry. -/
def entryRec (p : String × String) : Rec :=
  [(.str "type", .str p.1), (.str "id", .str p.2)]

/-- A well-formed raw reference list, as JSON delivers it to `parse_ref`:
one `{"type": ty, "id": i}` dict per entry. -/
def encodeRefs (l : List (String × String)) : Value :=
  .vlist (l.map (fun p => Value.vdict (entryRec p)))

/-- `dict(zip(types, ids))` over the entry pairs: insertion-ordered,
last value winning per type. -/
def typedFold (l : List (String × String)) : Rec :=
  l.foldl (fun d p => dictSet d (.str p.1) (.str p.2)) []

/-- The last entry of a dict whose key equals `k` (Python dict semantics:
the surviving value for that key after sequential insertion). -/
def lastMatchRec : Rec → Value → Option Value
  | [], _ => none
  | p :: d, k =>
    match lastMatchRec d k with
    | some v => some v
    | none => if vEq p.1 k then some p.2 else none

/-- The id of the last reference-list entry of type `ty`, if any. -/
def lastMatch : List (String × String) → String → Option String
  | [], _ => none
  | p :: l, ty =>
    match lastMatch l ty with
    | some v => some v
    | none => if p.1 = ty then some p.2 else none

/-- The value `parse_ref` is specified to leave in the field for `ty`:
the last entry of that type, or the empty-string default. -/
def refField (l : List (String × String)) (ty : String) : String :=
  (lastMatch l ty).getD ""

/-- The keys of a dict, in order. -/
def recKeys (r : Rec) : List Value :=
  r.map (fun p => p.1)

/-- A dict with pairwise key-inequality (the invariant of real Python
dicts). -/
def NoDupKeys (r : Rec) : Prop :=
  r.Pairwise (fun p q => vEq p.1 q.1 = false)

/-! ### Dict semantics lemmas -/

theorem dictLookup_nil (k : Value) : dictLookup [] k = none := rfl

theorem dictLookup_cons (p : Value × Value) (d : Rec) (k : Value) :
    dictLookup (p :: d) k = if vEq p.1 k then some p.2 else dictLookup d k := by
  by_cases h : vEq p.1 k = true
  · simp [dictLookup, List.find?_cons_of_pos, h]
  · simp only [Bool.not_eq_true] at h
    simp [dictLookup, List.find?_cons_of_neg, h]

theorem beq_comm_String (a b : String) : (a == b) = (b == a) := by
  by_cases h : a = b
  · subst h; rfl
  · rw [beq_eq_false_iff_ne.mpr h, beq_eq_false_iff_ne.mpr (Ne.symm h)]

theorem beq_comm_Int (a b : Int) : (a == b) = (b == a) := by
  by_cases h : a = b
  · subst h; rfl
  · rw [beq_eq_false_iff_ne.mpr h, beq_eq_false_iff_ne.mpr (Ne.symm h)]

theorem vEq_symm (a b : Value) : vEq a b = vEq b a := by
  cases a <;> cases b <;> try rfl
  · exact beq_comm_String _ _
  · exact beq_comm_Int _ _

theorem vEq_trans {a b c : Value} (h1 : vEq a b = true) (h2 : vEq b c = true) :
    vEq a c = true := by
  cases a <;> cases b <;> cases c <;>
    first
      | exact Bool.noConfusion h1
      | exact Bool.noConfusion h2
      | exact beq_iff_eq.mpr ((beq_iff_eq.mp h1).trans (beq_iff_eq.mp h2))

theorem dictLookup_dictSet (d : Rec) (k v ty : Value) :
    dictLookup (dictSet d k v) ty = if vEq k ty then some v else dictLookup d ty := by
  induction d with
  | nil =>
      simp [dictSet, dictLookup_cons, dictLookup_nil]
  | cons p d ih =>
      by_cases hp : vEq p.1 k = true
      · simp only [dictSet, hp, if_true]
        by_cases hk : vEq k ty = true
        · have hpt : vEq p.1 ty = true := vEq_trans hp hk
          simp [dictLookup_cons, hpt, hk]
        · have hpt : vEq p.1 ty = false := by
            by_contra hc
            simp only [Bool.not_eq_false] at hc
            exact absurd (vEq_trans (by rw [vEq_symm]; exact hp) hc) (by simp [hk])
          simp [dictLookup_cons, hpt, hk]
      · simp only [Bool.not_eq_true] at hp
        simp only [dictSet, hp, if_false]
        by_cases hpt : vEq p.1 ty = true
        · have hk : vEq k ty = false := by
            by_contra hc
            simp only [Bool.not_eq_false] at hc
            have : vEq p.1 k = true := vEq_trans hpt (by rw [vEq_symm]; exact hc)
            simp [this] at hp
          simp [dictLookup_cons, hpt, hk]
        · simp only [Bool.not_eq_true] at hpt
          simp [dictLookup_cons, hpt, ih]

theorem dictUpdate_nil (d : Rec) : dictUpdate d [] = d := rfl

theorem dictUpdate_cons (d : Rec) (p : Value × Value) (u : Rec) :
    dictUpdate d (p :: u) = dictUpdate (dictSet d p.1 p.2) u := rfl

theorem dictLookup_dictUpdate (u : Rec) (d : Rec) (ty : Value) :
    dictLookup (dictUpdate d u) ty =
      match lastMatchRec u ty with
      | some v => some v
      | none => dictLookup d ty := by
  induction u generalizing d with
  | nil => rfl
  | cons p u ih =>
      rw [dictUpdate_cons, ih]
      cases hL : lastMatchRec u ty with
      | some v => simp [lastMatchRec, hL]
      | none =>
          simp only [lastMatchRec, hL]
          rw [dictLookup_dictSet]
          by_cases hp : vEq p.1 ty = true <;> simp [hp]

theorem mem_dictSet_key {q : Value × Value} {d : Rec} {k v : Value}
    (h : q ∈ dictSet d k v) : (∃ p ∈ d, q.1 = p.1) ∨ q.1 = k := by
  induction d with
  | nil =>
      simp [dictSet] at h
      subst h
      exact Or.inr rfl
  | cons p d ih =>
      by_cases hp : vEq p.1 k = true
      · simp only [dictSet, hp, if_true, List.mem_cons] at h
        rcases h with h | h
        · exact Or.inl ⟨p, List.mem_cons_self _ _, by rw [h]⟩
        · exact Or.inl ⟨q, List.mem_cons_of_mem _ h, rfl⟩
      · simp only [Bool.not_eq_true] at hp
        simp only [dictSet, hp, Bool.false_eq_true, if_false, List.mem_cons] at h
        rcases h with h | h
        · exact Or.inl ⟨p, List.mem_cons_self _ _, by rw [h]⟩
        · rcases ih h with ⟨p2, hp2, he⟩ | he
          · exact Or.inl ⟨p2, List.mem_cons_of_mem _ hp2, he⟩
          · exact Or.inr he

theorem noDup_dictSet {d : Rec} (k v : Value) (h : NoDupKeys d) :
    NoDupKeys (dictSet d k v) := by
  induction d with
  | nil =>
      simp [dictSet, NoDupKeys]
  | cons p d ih =>
      rcases (List.pairwise_cons.mp h) with ⟨hp, hd⟩
      by_cases hpk : vEq p.1 k = true
      · simpa only [dictSet, hpk, if_true, NoDupKeys, List.pairwise_cons] using ⟨hp, hd⟩
      · simp only [Bool.not_eq_true] at hpk
        simp only [dictSet, hpk, Bool.false_eq_true, if_false]
        refine List.pairwise_cons.mpr ⟨?_, ih hd⟩
        intro q hq
        rcases mem_dictSet_key hq with ⟨p2, hp2, he⟩ | he
        · rw [he]; exact hp p2 hp2
        · rw [he]; exact hpk

theorem lastMatchRec_none_of_all {d : Rec} {ty : Value}
    (h : ∀ q ∈ d, vEq q.1 ty = false) : lastMatchRec d ty = none := by
  induction d with
  | nil => rfl
  | cons p d ih =>
      have hd : lastMatchRec d ty = none :=
        ih (fun q hq => h q (List.mem_cons_of_mem _ hq))
      simp [lastMatchRec, hd, h p (List.mem_cons_self _ _)]

theorem lastMatchRec_dictSet {d : Rec} (k w ty : Value) (h : NoDupKeys d) :
    lastMatchRec (dictSet d k w) ty =
      if vEq k ty then some w else lastMatchRec d ty := by
  induction d with
  | nil =>
      simp [dictSet, lastMatchRec]
  | cons p d ih =>
      rcases (List.pairwise_cons.mp h) with ⟨hpd, hd⟩
      by_cases hpk : vEq p.1 k = true
      · simp only [dictSet, hpk, if_true]
        by_cases hk : vEq k ty = true
        · have hpt : vEq p.1 ty = true := vEq_trans hpk hk
          have hnone : lastMatchRec d ty = none := by
            refine lastMatchRec_none_of_all (fun q hq => ?_)
            by_contra hc
            simp only [Bool.not_eq_false] at hc
            have : vEq p.1 q.1 = true := vEq_trans hpt (by rw [vEq_symm]; exact hc)
            simp [hpd q hq] at this
          simp [lastMatchRec, hnone, hpt, hk]
        · have hpt : vEq p.1 ty = false := by
            by_contra hc
            simp only [Bool.not_eq_false] at hc
            have : vEq k ty = true := vEq_trans (by rw [vEq_symm]; exact hpk) hc
            simp [this] at hk
          simp only [Bool.not_eq_true] at hk
          simp [lastMatchRec, hpt, hk]
      · simp only [Bool.not_eq_true] at hpk
        simp only [dictSet, hpk, Bool.false_eq_true, if_false]
        by_cases hk : vEq k ty = true
        · simp [lastMatchRec, ih hd, hk]
        · simp only [Bool.not_eq_true] at hk
          simp [lastMatchRec, ih hd, hk]

theorem lastMatchRec_typedFold_aux (l : List (String × String)) (acc : Rec)
    (h : NoDupKeys acc) (ty : String) :
    lastMatchRec (l.foldl (fun d p => dictSet d (.str p.1) (.str p.2)) acc) (.str ty) =
      match lastMatch l ty with
      | some v => some (.str v)
      | none => lastMatchRec acc (.str ty) := by
  induction l generalizing acc with
  | nil => rfl
  | cons p l ih =>
      rw [List.foldl_cons, ih _ (noDup_dictSet _ _ h)]
      cases hL : lastMatch l ty with
      | some v => simp [lastMatch, hL]
      | none =>
          simp only [lastMatch, hL]
          rw [lastMatchRec_dictSet _ _ _ h]
          by_cases hp : p.1 = ty
          · subst hp
            simp [vEq, beq_iff_eq]
          · have : vEq (.str p.1) (.str ty) = false := by
              simp [vEq, beq_eq_false_iff_ne, hp]
            simp [this, hp]

theorem lastMatchRec_typedFold (l : List (String × String)) (ty : String) :
    lastMatchRec (typedFold l) (.str ty) = (lastMatch l ty).map Value.str := by
  rw [typedFold, lastMatchRec_typedFold_aux l [] (by simp [NoDupKeys]) ty]
  cases lastMatch l ty <;> rfl

theorem colsUnion_entryRec (p : String × String) (ps : List (String × String)) :
    colsUnion ((p :: ps).map entryRec) = [.str "type", .str "id"] := by
  have step : ∀ (l : List (String × String)),
      List.foldl (fun acc r =>
        r.foldl (fun a q => if a.any (fun c => vEq c q.1) then a else a ++ [q.1]) acc)
        [Value.str "type", Value.str "id"] (l.map entryRec) =
        [Value.str "type", Value.str "id"] := by
    intro l
    induction l with
    | nil => rfl
    | cons q l ih => simpa [entryRec, vEq] using ih
  simp only [colsUnion, List.map_cons, List.foldl_cons]
  have first : (entryRec p).foldl
      (fun a q => if a.any (fun c => vEq c q.1) then a else a ++ [q.1]) [] =
      [Value.str "type", Value.str "id"] := rfl
  rw [first, step]

theorem frameFromRecords_entryRec (p : String × String) (ps : List (String × String)) :
    frameFromRecords ((p :: ps).map entryRec) =
      ⟨[.str "type", .str "id"], (p :: ps).map (fun q => [.str q.1, .str q.2])⟩ := by
  rw [frameFromRecords, colsUnion_entryRec]
  congr 1
  rw [List.map_map]
  rfl

theorem pdFrameOfValue_encodeRefs (p : String × String) (ps : List (String × String)) :
    pdFrameOfValue (encodeRefs (p :: ps)) =
      .ok (frameFromRecords ((p :: ps).map entryRec)) := by
  have hall : ((p :: ps).map (fun q => Value.vdict (entryRec q))).all isVDict = true := by
    apply List.all_eq_true.mpr
    intro x hx
    rcases List.mem_map.mp hx with ⟨q, hq, rfl⟩
    rfl
  have hmap : ((p :: ps).map (fun q => Value.vdict (entryRec q))).map asRec =
      (p :: ps).map entryRec := by
    rw [List.map_map]; rfl
  have h1 : pdFrameOfValue (.vlist ((p :: ps).map (fun q => Value.vdict (entryRec q)))) =
      if ((p :: ps).map (fun q => Value.vdict (entryRec q))).isEmpty then .ok ⟨[], []⟩
      else if ((p :: ps).map (fun q => Value.vdict (entryRec q))).all isVDict then
        .ok (frameFromRecords (((p :: ps).map (fun q => Value.vdict (entryRec q))).map asRec))
      else if ((p :: ps).map (fun q => Value.vdict (entryRec q))).any isVDict then
        .error .valueError
      else .ok ⟨[.int 0], ((p :: ps).map (fun q => Value.vdict (entryRec q))).map (fun v => [v])⟩ :=
    rfl
  rw [encodeRefs, h1, if_neg (by simp), if_pos hall, hmap]

theorem parse_refCore_encodeRefs (p : String × String) (ps : List (String × String)) :
    parse_refCore (encodeRefs (p :: ps)) =
      .ok (dictUpdate refDefault (typedFold (p :: ps))) := by
  have hsi : pdSetIndex ⟨[.str "type", .str "id"],
      (p :: ps).map (fun q => [.str q.1, .str q.2])⟩ (.str "type") =
      .ok ⟨(p :: ps).map (fun q => .str q.1), [.str "id"],
           (p :: ps).map (fun q => [.str q.2])⟩ := by
    simp only [pdSetIndex]
    have hpos : posOf [Value.str "type", Value.str "id"] (.str "type") = some 0 := rfl
    rw [hpos]
    simp only [List.map_map]
    rfl
  have htr : transposeI ⟨(p :: ps).map (fun q => .str q.1), [.str "id"],
      (p :: ps).map (fun q => [.str q.2])⟩ =
      ⟨[.str "id"], (p :: ps).map (fun q => .str q.1),
       [(p :: ps).map (fun q => .str q.2)]⟩ := by
    simp only [transposeI]
    congr 1
    rw [show List.range ([Value.str "id"].length) = [0] from rfl]
    simp only [List.map_cons, List.map_nil, List.map_map]
    rfl
  have hrd : toDictRecords (resetIndexDrop ⟨[.str "id"], (p :: ps).map (fun q => .str q.1),
      [(p :: ps).map (fun q => .str q.2)]⟩) = .ok [typedFold (p :: ps)] := by
    simp only [resetIndexDrop, toDictRecords]
    have hhash : ((p :: ps).map (fun q => Value.str q.1)).all hashableV = true := by
      apply List.all_eq_true.mpr
      intro x hx
      rcases List.mem_map.mp hx with ⟨q, hq, rfl⟩
      rfl
    rw [if_pos hhash]
    congr 1
    show [buildDict (((p :: ps).map (fun q => Value.str q.1)).zip
        ((p :: ps).map (fun q => Value.str q.2)))] = [typedFold (p :: ps)]
    rw [List.zip_map', buildDict, List.foldl_map]
    rfl
  simp only [parse_refCore, pdFrameOfValue_encodeRefs, frameFromRecords_entryRec, hsi, htr, hrd]

theorem parse_ref_encodeRefs (p : String × String) (ps : List (String × String)) :
    parse_ref (encodeRefs (p :: ps)) = dictUpdate refDefault (typedFold (p :: ps)) := by
  simp only [parse_ref, parse_refCore_encodeRefs]

theorem parse_ref_field (l : List (String × String)) (ty : String)
    (hty : ty = "replied_to" ∨ ty = "quoted" ∨ ty = "retweeted") :
    dictLookup (parse_ref (encodeRefs l)) (.str ty) = some (.str (refField l ty)) := by
  cases l with
  | nil =>
      have he : parse_ref (encodeRefs []) = refDefault := rfl
      rw [he]
      rcases hty with h | h | h <;> subst h <;> rfl
  | cons p ps =>
      rw [parse_ref_encodeRefs, dictLookup_dictUpdate, lastMatchRec_typedFold]
      cases hL : lastMatch (p :: ps) ty with
      | some v => simp [refField, hL]
      | none =>
          simp only [hL, Option.map_none']
          rw [refField, hL]
          rcases hty with h | h | h <;> subst h <;> rfl

theorem recKeys_dictSet_present {d : Rec} {k : Value} (v : Value)
    (h : (recKeys d).any (fun x => vEq x k) = true) :
    recKeys (dictSet d k v) = recKeys d := by
  induction d with
  | nil => simp [recKeys] at h
  | cons p d ih =>
      by_cases hp : vEq p.1 k = true
      · simp [dictSet, hp, recKeys]
      · simp only [recKeys, List.map_cons, List.any_cons, hp, Bool.false_or] at h
        simp only [Bool.not_eq_true] at hp
        simp only [dictSet, hp, Bool.false_eq_true, if_false, recKeys, List.map_cons]
        rw [show List.map (fun (p : Value × Value) => p.1) (dictSet d k v) =
              recKeys (dictSet d k v) from rfl, ih h]
        rfl

theorem recKeys_dictUpdate {u d : Rec}
    (h : ∀ p ∈ u, (recKeys d).any (fun x => vEq x p.1) = true) :
    recKeys (dictUpdate d u) = recKeys d := by
  induction u generalizing d with
  | nil => rfl
  | cons p u ih =>
      rw [dictUpdate_cons]
      have h1 : (recKeys d).any (fun x => vEq x p.1) = true :=
        h p (List.mem_cons_self _ _)
      have h2 : recKeys (dictSet d p.1 p.2) = recKeys d :=
        recKeys_dictSet_present _ h1
      rw [ih (fun q hq => by rw [h2]; exact h q (List.mem_cons_of_mem _ hq)), h2]

theorem foldSet_keys_aux (P : Value → Prop) (l : List (String × String)) :
    ∀ (acc : Rec), (∀ p ∈ acc, P p.1) → (∀ q ∈ l, P (.str q.1)) →
      ∀ p ∈ l.foldl (fun d q => dictSet d (.str q.1) (.str q.2)) acc, P p.1 := by
  induction l with
  | nil => intro acc hacc _ p hp; exact hacc p hp
  | cons q l ih =>
      intro acc hacc hl p hp
      rw [List.foldl_cons] at hp
      refine ih _ ?_ (fun q2 hq2 => hl q2 (List.mem_cons_of_mem _ hq2)) p hp
      intro p2 hp2
      rcases mem_dictSet_key hp2 with ⟨p3, hp3, he⟩ | he
      · rw [he]; exact hacc p3 hp3
      · rw [he]; exact hl q (List.mem_cons_self _ _)

theorem typedFold_keys (P : Value → Prop) (l : List (String × String))
    (hl : ∀ q ∈ l, P (.str q.1)) : ∀ p ∈ typedFold l, P p.1 :=
  foldSet_keys_aux P l [] (by intro p hp; simp at hp) hl

theorem lastMatch_none_of_absent {ps : List (String × String)} {ty : String}
    (h : ∀ q ∈ ps, q.1 ≠ ty) : lastMatch ps ty = none := by
  induction ps with
  | nil => rfl
  | cons q ps ih =>
      have hq : lastMatch ps ty = none :=
        ih (fun q2 hq2 => h q2 (List.mem_cons_of_mem _ hq2))
      simp [lastMatch, hq, h q (List.mem_cons_self _ _)]

theorem lastMatch_isSome_of_mem {ps : List (String × String)} {ty i : String}
    (h : (ty, i) ∈ ps) : (lastMatch ps ty).isSome = true := by
  induction ps with
  | nil => simp at h
  | cons q ps ih =>
      rcases List.mem_cons.mp h with he | hm
      · cases hL : lastMatch ps ty with
        | some v => simp [lastMatch, hL]
        | none => simp [lastMatch, hL, ← he]
      · cases hL : lastMatch ps ty with
        | some v => simp [lastMatch, hL]
        | none => simp [hL] at ih; exact absurd (ih hm) (by simp)

theorem refField_of_mem {l : List (String × String)}
    (hdist : l.Pairwise (fun a b => a.1 ≠ b.1)) {ty i : String}
    (h : (ty, i) ∈ l) : refField l ty = i := by
  induction l with
  | nil => simp at h
  | cons p l ih =>
      rcases List.pairwise_cons.mp hdist with ⟨hp, hl⟩
      rcases List.mem_cons.mp h with he | hm
      · have hnone : lastMatch l ty = none := by
          refine lastMatch_none_of_absent (fun q hq => ?_)
          have := hp q hq
          rw [← he] at this
          exact fun hc => this hc.symm
        rw [refField, lastMatch, hnone, ← he]
        simp
      · have hs := lastMatch_isSome_of_mem hm
        cases hL : lastMatch l ty with
        | none => rw [hL] at hs; simp at hs
        | some v =>
            have := ih hl hm
            rw [refField, lastMatch, hL]
            rw [refField, hL] at this
            simpa using this

theorem parse_ref_three_fields (l : List (String × String))
    (hty : ∀ q ∈ l, q.1 = "replied_to" ∨ q.1 = "quoted" ∨ q.1 = "retweeted") :
    parse_ref (encodeRefs l) =
      [(.str "replied_to", .str (refField l "replied_to")),
       (.str "quoted", .str (refField l "quoted")),
       (.str "retweeted", .str (refField l "retweeted"))] := by
  cases l with
  | nil => rfl
  | cons p ps =>
      have hP : ∀ q ∈ typedFold (p :: ps),
          ((recKeys refDefault).any fun x => vEq x q.1) = true :=
        typedFold_keys (fun k => ((recKeys refDefault).any fun x => vEq x k) = true)
          (p :: ps)
          (by intro q hq; rcases hty q hq with h | h | h <;> rw [h] <;> rfl)
      have hkeys : recKeys (parse_ref (encodeRefs (p :: ps))) = recKeys refDefault := by
        rw [parse_ref_encodeRefs]
        exact recKeys_dictUpdate hP
      have h1 := parse_ref_field (p :: ps) "replied_to" (Or.inl rfl)
      have h2 := parse_ref_field (p :: ps) "quoted" (Or.inr (Or.inl rfl))
      have h3 := parse_ref_field (p :: ps) "retweeted" (Or.inr (Or.inr rfl))
      rcases hrec : parse_ref (encodeRefs (p :: ps)) with _ | ⟨a, _ | ⟨b, _ | ⟨c, _ | ⟨d, rest⟩⟩⟩⟩ <;>
        rw [hrec] at hkeys <;> simp [recKeys, refDefault] at hkeys
      obtain ⟨ha, hb, hc⟩ := hkeys
      rw [hrec] at h1 h2 h3
      rw [dictLookup_cons, dictLookup_cons, dictLookup_cons] at h1 h2 h3
      rw [ha] at h1 h2 h3
      rw [hb] at h2 h3
      rw [hc] at h3
      simp only [show vEq (Value.str "replied_to") (Value.str "replied_to") = true from rfl,
        show vEq (Value.str "replied_to") (Value.str "quoted") = false from rfl,
        show vEq (Value.str "quoted") (Value.str "quoted") = true from rfl,
        show vEq (Value.str "replied_to") (Value.str "retweeted") = false from rfl,
        show vEq (Value.str "quoted") (Value.str "retweeted") = false from rfl,
        show vEq (Value.str "retweeted") (Value.str "retweeted") = true from rfl,
        if_true, Bool.false_eq_true, if_false, Option.some.injEq] at h1 h2 h3
      rcases a with ⟨a1, a2⟩
      rcases b with ⟨b1, b2⟩
      rcases c with ⟨c1, c2⟩
      simp only at ha hb hc h1 h2 h3
      rw [ha, hb, hc, h1, h2, h3]

theorem mentionsLoop_ok (tid aid : Value) {ms ids : List Value}
    (h : List.Forall₂ (fun m i => ∃ d, m = Value.vdict d ∧ dictLookup d (.str "id") = some i) ms ids) :
    mentionsLoop tid aid ms =
      .ok (ids.map (fun i => mkEdgeRec aid i tid (RType.value .MENTION))) := by
  induction h with
  | nil => rfl
  | cons hmi hrest ih =>
      rcases hmi with ⟨d, rfl, hl⟩
      simp [mentionsLoop, hl, ih]

theorem processFile_processed (cd f : String) (load : Option Response) (st : AggState) :
    (processFile cd f load st).processed = st.processed := by
  rcases load with _ | res
  · rfl
  · rcases hres : res.rdata with _ | d
    · simp [processFile, hres]
    · rcases hp : parse_data d with e | t <;> simp [processFile, hres, hp]

theorem flushAll_processed (sd : String) (i proto : Nat) (sink : String → Bool)
    (st : AggState) : (flushAll sd i proto sink st).processed = st.processed := rfl

theorem aggLoop_processed (cd sd : String) (agg proto : Nat) (sink : String → Bool)
    (total : Nat) (fs : List (String × Option Response)) :
    ∀ (i : Nat) (st : AggState),
      (aggLoop cd sd agg proto sink total i fs st).processed = st.processed + fs.length := by
  induction fs with
  | nil => intro i st; simp [aggLoop]
  | cons f fs ih =>
      intro i st
      rw [aggLoop, ih]
      by_cases hc : (i % agg = 0 ∧ 0 < i) ∨ i = total - 1
      · simp only [hc, if_true, flushAll_processed, processFile_processed, List.length_cons]
        omega
      · simp only [hc, if_false, processFile_processed, List.length_cons]
        omega

/-- Claim C1: for tweet/referenced-tweet tables whose `id`→`author_id`
dict construction succeeds (both tables have the two columns), a target id
present in the referenced table's id index makes `parse_retweets`
(resp. `parse_quotes`) emit
`{src_user_id: referenced author, tar_user_id: author_id, tweet_id,
rtype: RETWEET=1 (resp. QUOTE=2)}`, with no condition on the main tweet
table's content (side-table precedence). -/
theorem claim_C1_side_table_precedence
    (tid aid rid : Value) (tweet_df referenced_df : PFrame) (td rd : Rec) (rt : Value)
    (h1 : dfToDict tweet_df (.str "id") (.str "author_id") = .ok td)
    (h2 : dfToDict referenced_df (.str "id") (.str "author_id") = .ok rd)
    (h3 : dictLookup rd rid = some rt) :
    parse_retweets tid aid rid tweet_df referenced_df =
      .ok (mkEdgeRec rt aid tid (RType.value .RETWEET)) ∧
    parse_quotes tid aid rid tweet_df referenced_df =
      .ok (mkEdgeRec rt aid tid (RType.value .QUOTE)) := by
  constructor
  · simp only [parse_retweets, h1, h2, h3]; rfl
  · simp only [parse_quotes, h1, h2, h3]; rfl

/-- Witness for C1: the target id `9` is in both tables with different
authors; the referenced table's author wins. -/
theorem claim_C1_witness :
    parse_retweets (.str "t") (.str "a") (.str "9")
      ⟨[.str "id", .str "author_id"], [[.str "9", .str "mainAuthor"]]⟩
      ⟨[.str "id", .str "author_id"], [[.str "9", .str "refAuthor"]]⟩ =
      .ok (mkEdgeRec (.str "refAuthor") (.str "a") (.str "t") (RType.value .RETWEET)) ∧
    parse_quotes (.str "t") (.str "a") (.str "9")
      ⟨[.str "id", .str "author_id"], [[.str "9", .str "mainAuthor"]]⟩
      ⟨[.str "id", .str "author_id"], [[.str "9", .str "refAuthor"]]⟩ =
      .ok (mkEdgeRec (.str "refAuthor") (.str "a") (.str "t") (RType.value .QUOTE)) :=
  claim_C1_side_table_precedence (.str "t") (.str "a") (.str "9") _ _
    [(.str "9", .str "mainAuthor")] [(.str "9", .str "refAuthor")] (.str "refAuthor")
    rfl rfl rfl

/-- Counterexample to C2 as stated: with the empty referenced-tweet table
(`pd.DataFrame()`, no columns) the claim demands fallback to the main
table — whose id index contains the target — and "never raises"; but the
id→author dict construction runs before the `try`, so `set_index("id")`
raises `KeyError` out of the function and no fallback happens. -/
theorem claim_C2_counterexample :
    parse_retweets (.str "t1") (.str "u1") (.str "9")
      ⟨[.str "id", .str "author_id"], [[.str "9", .str "a1"]]⟩ ⟨[], []⟩ =
      .error .keyError ∧
    parse_quotes (.str "t1") (.str "u1") (.str "9")
      ⟨[.str "id", .str "author_id"], [[.str "9", .str "a1"]]⟩ ⟨[], []⟩ =
      .error .keyError :=
  ⟨rfl, rfl⟩

/-- Claim C2 (amended): once both id→author dicts are successfully built
(tables with `id` and `author_id` columns and hashable id cells), a lookup
failure in the referenced dict — missing key or type-mismatched key — falls
back to the tweet dict, and if both lookups fail the result is the empty
record with no exception; a table on which the dict construction itself
fails (e.g. the fully empty table) instead raises. -/
theorem claim_C2_amended
    (tid aid rid : Value) (tweet_df referenced_df : PFrame) (td rd : Rec)
    (h1 : dfToDict tweet_df (.str "id") (.str "author_id") = .ok td)
    (h2 : dfToDict referenced_df (.str "id") (.str "author_id") = .ok rd)
    (h3 : dictLookup rd rid = none) :
    (∀ rt, dictLookup td rid = some rt →
        parse_retweets tid aid rid tweet_df referenced_df =
          .ok (mkEdgeRec rt aid tid (RType.value .RETWEET)) ∧
        parse_quotes tid aid rid tweet_df referenced_df =
          .ok (mkEdgeRec rt aid tid (RType.value .QUOTE))) ∧
    (dictLookup td rid = none →
        parse_retweets tid aid rid tweet_df referenced_df = .ok [] ∧
        parse_quotes tid aid rid tweet_df referenced_df = .ok []) := by
  constructor
  · intro rt h4
    constructor
    · simp only [parse_retweets, h1, h2, h3, h4]; rfl
    · simp only [parse_quotes, h1, h2, h3, h4]; rfl
  · intro h4
    constructor
    · simp only [parse_retweets, h1, h2, h3, h4]
    · simp only [parse_quotes, h1, h2, h3, h4]

/-- Witness for amended C2: an integer target id against string-keyed id
indexes (type mismatch) fails in both dicts and yields the empty record. -/
theorem claim_C2_witness :
    parse_retweets (.str "t") (.str "a") (.int 9)
      ⟨[.str "id", .str "author_id"], [[.str "9", .str "m"]]⟩
      ⟨[.str "id", .str "author_id"], [[.str "9", .str "r"]]⟩ = .ok [] ∧
    parse_quotes (.str "t") (.str "a") (.int 9)
      ⟨[.str "id", .str "author_id"], [[.str "9", .str "m"]]⟩
      ⟨[.str "id", .str "author_id"], [[.str "9", .str "r"]]⟩ = .ok [] :=
  (claim_C2_amended (.str "t") (.str "a") (.int 9)
    ⟨[.str "id", .str "author_id"], [[.str "9", .str "m"]]⟩
    ⟨[.str "id", .str "author_id"], [[.str "9", .str "r"]]⟩
    [(.str "9", .str "m")] [(.str "9", .str "r")] rfl rfl rfl).2 rfl

/-- Claim C3 evaluated on a failing input (code bug): two well-formed
response files, `agg_interval = 1000`, all persistence succeeding.  The
claim demands that the accumulators be non-empty after the appends and that
the end-of-input flush reset all four to empty; the run instead ends with
the tweets accumulator still holding both frames (no reset anywhere) and
with the users/media/referenced accumulators always empty, because
`users = parse_users(res)` and `media = parse_media(res)` omit the required
positional `logger` argument and raise `TypeError` on every file (caught by
the per-file `except`).  All four flush calls do run at the final file. -/
theorem claim_C3_code_eval :
    (let res : Response := ⟨some [[(.str "id", .str "1"), (.str "author_id", .str "7"),
        (.str "public_metrics", .vdict [(.str "retweet_count", .int 3)])]],
        some [], some [], some []⟩
     let st := read_aggregate_pickle "cache" "save"
        [("a.json", some res), ("b.json", some res)] 1000 4 false (fun _ => true)
     st.all_tweets.length = 2 ∧ st.all_users = [] ∧ st.all_media = [] ∧ st.all_ref = []
       ∧ st.outcomes.length = 4 ∧ st.processed = 2) :=
  ⟨rfl, rfl, rfl, rfl, rfl, rfl⟩

/-- Claim C4: a concat failure (empty accumulator) returns the
`concatFailed` warning outcome with the accumulator unchanged; a
persistence failure returns the `saveFailed` warning outcome with the batch
dropped and not retried (the sink is invoked once per flush by
construction); and in every case the run completes all its files — nothing
in the flush path is fatal. -/
theorem claim_C4_flush_errors :
    (∀ (df_name pickle_path : String) (proto : Nat) (sinkOk : Bool),
        concat_and_pickle [] df_name pickle_path proto sinkOk =
          (.concatFailed ("Cannot concat " ++ df_name ++ " list of " ++ "0"
            ++ " dataframes"), [])) ∧
    (∀ (df : PFrame) (dfs : List PFrame) (df_name pickle_path : String) (proto : Nat),
        concat_and_pickle (df :: dfs) df_name pickle_path proto false =
          (.saveFailed ("Cannot save " ++ df_name ++ " to " ++ pickle_path), df :: dfs)) ∧
    (∀ (cd sd : String) (files : List (String × Option Response)) (agg proto : Nat)
        (dbg : Bool) (sink : String → Bool),
        (read_aggregate_pickle cd sd files agg proto dbg sink).processed =
          (if dbg then files.take 10 else files).length) := by
  refine ⟨fun _ _ _ _ => rfl, fun _ _ _ _ _ => rfl, ?_⟩
  intro cd sd files agg proto dbg sink
  rw [read_aggregate_pickle, aggLoop_processed]
  exact Nat.zero_add _

/-- Counterexample to C5 as stated: a batch with `public_metrics` but no
`referenced_tweets` anywhere.  The claim demands the result be the base
columns joined with the exploded metrics columns (here `retweet_count`);
the code returns the base frame only — the metrics expansion is computed
but concatenated solely inside the `try` that the missing
`referenced_tweets` column aborts. -/
theorem claim_C5_counterexample :
    parse_data [[(.str "id", .str "1"), (.str "author_id", .str "7"),
        (.str "public_metrics", .vdict [(.str "retweet_count", .int 3)])]] =
      .ok ⟨[.str "id", .str "author_id", .str "public_metrics"],
           [[.str "1", .str "7", .vdict [(.str "retweet_count", .int 3)]]]⟩ ∧
    ((⟨[.str "id", .str "author_id", .str "public_metrics"],
       [[.str "1", .str "7", .vdict [(.str "retweet_count", .int 3)]]]⟩ : PFrame).cols.any
        (fun c => vEq c (.str "retweet_count"))) = false :=
  ⟨rfl, rfl⟩

/-- Claim C5 (amended): for a batch with a `public_metrics` column and no
`referenced_tweets` column, `parse_data` raises nothing and returns the
original frame unchanged — the reference concatenation is skipped, and so
is the metrics join. -/
theorem claim_C5_amended (data : List Rec) (j : Nat)
    (h1 : posOf (frameFromRecords data).cols (.str "public_metrics") = some j)
    (h2 : posOf (frameFromRecords data).cols (.str "referenced_tweets") = none) :
    parse_data data = .ok (frameFromRecords data) := by
  simp only [parse_data, getCol, parse_dataRefJoin, h1, h2]

/-- Witness for amended C5 at the one-tweet batch. -/
theorem claim_C5_witness :
    parse_data [[(.str "id", .str "1"), (.str "author_id", .str "7"),
        (.str "public_metrics", .vdict [(.str "retweet_count", .int 3)])]] =
      .ok (frameFromRecords [[(.str "id", .str "1"), (.str "author_id", .str "7"),
        (.str "public_metrics", .vdict [(.str "retweet_count", .int 3)])]]) :=
  claim_C5_amended _ 2 rfl rfl

/-- Claim C6: for a reference list whose entries have valid types with at
most one entry per type, `parse_ref` returns exactly the three fields
`replied_to`, `quoted`, `retweeted` in order, each field of a type present
in the list holding that entry's id and every other field the empty
string. -/
theorem claim_C6_one_entry_per_type (l : List (String × String))
    (hty : ∀ q ∈ l, q.1 = "replied_to" ∨ q.1 = "quoted" ∨ q.1 = "retweeted")
    (hdist : l.Pairwise (fun a b => a.1 ≠ b.1)) :
    parse_ref (encodeRefs l) =
      [(.str "replied_to", .str (refField l "replied_to")),
       (.str "quoted", .str (refField l "quoted")),
       (.str "retweeted", .str (refField l "retweeted"))] ∧
    (∀ ty i, (ty, i) ∈ l → refField l ty = i) :=
  ⟨parse_ref_three_fields l hty, fun _ _ h => refField_of_mem hdist h⟩

/-- Witness for C6 at a two-entry list. -/
theorem claim_C6_witness :
    parse_ref (encodeRefs [("quoted", "123"), ("replied_to", "9")]) =
      [(.str "replied_to", .str (refField [("quoted", "123"), ("replied_to", "9")] "replied_to")),
       (.str "quoted", .str (refField [("quoted", "123"), ("replied_to", "9")] "quoted")),
       (.str "retweeted", .str (refField [("quoted", "123"), ("replied_to", "9")] "retweeted"))] ∧
    (∀ ty i, (ty, i) ∈ [("quoted", "123"), ("replied_to", "9")] →
      refField [("quoted", "123"), ("replied_to", "9")] ty = i) :=
  claim_C6_one_entry_per_type [("quoted", "123"), ("replied_to", "9")]
    (by decide) (by decide)

/-- Claim C7: `parse_ref` is a total function (the bare `except` catches
every exception of the pipeline), and on every failure of the pipeline —
absent (`nan`), empty, scalar, or otherwise structurally unexpected input —
it returns the all-empty record. -/
theorem claim_C7_resolver_default :
    (∀ s, parse_ref (.str s) = refDefault) ∧
    (∀ n, parse_ref (.int n) = refDefault) ∧
    parse_ref .nan = refDefault ∧
    parse_ref (.vlist []) = refDefault ∧
    parse_ref (.vlist [.int 5]) = refDefault ∧
    (∀ t e, parse_refCore t = .error e → parse_ref t = refDefault) := by
  refine ⟨fun _ => rfl, fun _ => rfl, rfl, rfl, rfl, ?_⟩
  intro t e h
  simp only [parse_ref, h]

/-- Witness for C7: a dict of scalars (a structurally unexpected shape,
on which `pd.DataFrame` raises) yields the default. -/
theorem claim_C7_witness :
    parse_ref (.vdict [(.str "type", .str "x")]) = refDefault :=
  claim_C7_resolver_default.2.2.2.2.2 (.vdict [(.str "type", .str "x")]) .valueError rfl

/-- Claim C8: for every well-formed reference list and each of the three
reference types, the corresponding output field of `parse_ref` holds the id
of the *last* entry of that type (last-write-wins), or the empty string if
none. -/
theorem claim_C8_last_write_wins (l : List (String × String)) (ty : String)
    (hty : ty = "replied_to" ∨ ty = "quoted" ∨ ty = "retweeted") :
    dictLookup (parse_ref (encodeRefs l)) (.str ty) = some (.str (refField l ty)) :=
  parse_ref_field l ty hty

/-- Witness for C8: two `quoted` entries; the later one (`B`) survives. -/
theorem claim_C8_witness :
    dictLookup (parse_ref (encodeRefs [("quoted", "A"), ("quoted", "B")]))
      (.str "quoted") = some (.str "B") :=
  claim_C8_last_write_wins [("quoted", "A"), ("quoted", "B")] "quoted"
    (Or.inr (Or.inl rfl))

/-- Claim C9: with no `mentions` key, `parse_mentions` returns the empty
sequence; with `N` mention entries each carrying an id, it returns exactly
`N` edge records, the `k`-th having `src_user_id = author_id`,
`tar_user_id` the `k`-th mention's id, the given tweet id, and rtype
MENTION=4. -/
theorem claim_C9_mentions (tid aid : Value) (entities : Rec) :
    (dictLookup entities (.str "mentions") = none →
      parse_mentions tid aid entities = .ok []) ∧
    (∀ ms ids, dictLookup entities (.str "mentions") = some (.vlist ms) →
      List.Forall₂ (fun m i => ∃ d, m = Value.vdict d ∧
        dictLookup d (.str "id") = some i) ms ids →
      parse_mentions tid aid entities =
        .ok (ids.map (fun i => mkEdgeRec aid i tid (RType.value .MENTION))) ∧
      (ids.map (fun i => mkEdgeRec aid i tid (RType.value .MENTION))).length = ms.length) := by
  constructor
  · intro h
    simp only [parse_mentions, h]
  · intro ms ids h hf
    constructor
    · simp only [parse_mentions, h, mentionsLoop_ok tid aid hf]
    · rw [List.length_map]
      exact (List.Forall₂.length_eq hf).symm

/-- Witness for C9: no mentions key, and a two-mention entities dict. -/
theorem claim_C9_witness :
    parse_mentions (.str "t") (.str "a") [(.str "x", .int 0)] = .ok [] ∧
    parse_mentions (.str "t") (.str "a")
      [(.str "mentions", .vlist [.vdict [(.str "id", .str "5")],
                                 .vdict [(.str "id", .str "7")]])] =
      .ok [mkEdgeRec (.str "a") (.str "5") (.str "t") (RType.value .MENTION),
           mkEdgeRec (.str "a") (.str "7") (.str "t") (RType.value .MENTION)] := by
  constructor
  · exact (claim_C9_mentions (.str "t") (.str "a") [(.str "x", .int 0)]).1 rfl
  · exact ((claim_C9_mentions (.str "t") (.str "a")
      [(.str "mentions", .vlist [.vdict [(.str "id", .str "5")],
                                 .vdict [(.str "id", .str "7")]])]).2
      [.vdict [(.str "id", .str "5")], .vdict [(.str "id", .str "7")]]
      [.str "5", .str "7"] rfl
      (List.Forall₂.cons ⟨_, rfl, rfl⟩
        (List.Forall₂.cons ⟨_, rfl, rfl⟩ List.Forall₂.nil))).1

/-- Claim C10: `concat_and_pickle` never mutates its `df_list` argument:
on the concat-failure, persistence-failure and success paths alike, the
caller's list after the call is exactly the list passed in. -/
theorem claim_C10_no_mutation (df_list : List PFrame) (df_name pickle_path : String)
    (proto : Nat) (sinkOk : Bool) :
    (concat_and_pickle df_list df_name pickle_path proto sinkOk).2 = df_list := by
  cases df_list <;> cases sinkOk <;> rfl
